import Mathlib

/-!
Verification of `github_org_puller.py`, a tool that lists all repositories
of a GitHub organization through the paginated REST API, filters them by
fork/archived flags, and clones each one by invoking `git` as a child
process.

The embedding models the ambient world (HTTP endpoint, filesystem,
subprocess behaviour, parent environment) as explicit parameters.
Pagination is given fuel; `none` models a fetch loop that never reaches a
short page.
-/

/-! ## String helpers (Python `str.strip`, `in`, `os.path.join`) -/

/-- Drop leading whitespace characters from a character list. -/
def dropWs : List Char → List Char
  | [] => []
  | c :: cs => if c.isWhitespace then dropWs cs else c :: cs

/-- Python `str.strip()`: remove leading and trailing whitespace. -/
def stripStr (s : String) : String :=
  ⟨(dropWs (dropWs s.data).reverse).reverse⟩

/-- Does the second list start with the first? -/
def beginsWith : List Char → List Char → Bool
  | [], _ => true
  | _ :: _, [] => false
  | p :: ps, c :: cs => p == c && beginsWith ps cs

/-- Does the list contain the pattern as a contiguous run? -/
def hasSub (pat : List Char) : List Char → Bool
  | [] => beginsWith pat []
  | c :: cs => beginsWith pat (c :: cs) || hasSub pat cs

/-- Python `pat in s` substring test. -/
def containsSubstr (s pat : String) : Bool := hasSub pat.data s.data

/-- Python `os.path.join(a, b)` for two components. -/
def pathJoin (a b : String) : String :=
  if b.data.head? == some '/' then b
  else if a.data.isEmpty then b
  else if a.data.getLast? == some '/' then a ++ b
  else a ++ "/" ++ b

/-! ## Environment dictionaries (Python `os.environ` / `dict` assignment) -/

/-- Python dict assignment `d[k] = v` on an insertion-ordered
association list: replace in place when the key is present, append
otherwise. -/
def envSet : List (String × String) → String → String → List (String × String)
  | [], k, v => [(k, v)]
  | (k0, v0) :: rest, k, v =>
    if k0 = k then (k, v) :: rest else (k0, v0) :: envSet rest k v

/-! ## Data model -/

/-- One repository descriptor, the fields of the GitHub API JSON object
that the program reads: `name`, `clone_url`, `ssh_url`, `fork`,
`archived`. -/
structure Repo where
  name : String
  clone_url : String
  ssh_url : String
  fork : Bool
  archived : Bool
deriving DecidableEq, Repr

/-- One HTTP response of the listing endpoint: status code, body text,
and the decoded JSON array of repositories (meaningful on status 200). -/
structure HttpResponse where
  status : Nat
  text : String
  repos : List Repo
deriving DecidableEq, Repr

/-- The three failure modes of `get_all_repos` (each raised as a Python
`ValueError`; we keep them distinguishable as the spec names them). -/
inductive ListError where
  | notFound (org : String)
  | rateLimited
  | apiError (status : Nat) (body : String)
deriving DecidableEq, Repr

/-- Result of one `subprocess.run` of the git client: a completed process
with exit code and stderr, a `TimeoutExpired`, a `FileNotFoundError`
(client binary missing), or some other exception. -/
inductive ProcResult where
  | exited (code : Nat) (stderr : String)
  | timeoutExpired
  | fileNotFound
  | otherError (msg : String)
deriving DecidableEq, Repr

/-- Record of one child-process invocation: argument vector, timeout in
seconds, and the environment passed to the child. -/
structure Invocation where
  argv : List String
  timeoutSecs : Nat
  env : List (String × String)
deriving DecidableEq, Repr

/-- Per-repository clone outcome as the spec names it. -/
inductive CloneOutcome where
  | success
  | alreadyExists
  | failed (reason : String)
deriving DecidableEq, Repr

/-- `clone_repo` returns a boolean to its caller: `True` for a fresh
clone and for an already-existing destination, `False` for any failure. -/
def cloneBool : CloneOutcome → Bool
  | .success => true
  | .alreadyExists => true
  | .failed _ => false

/-- The ambient system a clone touches: which paths exist on disk, what
each child-process invocation returns, and the parent environment
`os.environ`. -/
structure SysEnv where
  existingPaths : List String
  proc : List String → ProcResult
  osEnviron : List (String × String)

/-! ## Repository Lister: `get_all_repos` (source lines 53-106) -/

/-- Fixed page size, the GitHub maximum (source line 64). -/
def per_page : Nat := 100

/-- The fetch loop of `get_all_repos`: request page `page`, dispatch on
the status code, stop on an empty page or a page shorter than
`per_page`, otherwise accumulate and continue with `page + 1`.  The
second component of a successful result logs every issued request as a
`(page, per_page)` pair, in order.  `none` means the fuel ran out, i.e.
the loop would still be running. -/
def getAllReposLoop (endpoint : Nat → HttpResponse) (org_name : String) :
    Nat → Nat → List Repo → List (Nat × Nat) →
    Option (Except ListError (List Repo × List (Nat × Nat)))
  | 0, _, _, _ => none
  | fuel + 1, page, repos, log =>
    let response := endpoint page
    let log := log ++ [(page, per_page)]
    if response.status = 404 then
      some (.error (.notFound org_name))
    else if response.status = 403 then
      some (.error .rateLimited)
    else if response.status ≠ 200 then
      some (.error (.apiError response.status response.text))
    else
      let page_repos := response.repos
      if page_repos.isEmpty then
        some (.ok (repos, log))
      else if page_repos.length < per_page then
        some (.ok (repos ++ page_repos, log))
      else
        getAllReposLoop endpoint org_name fuel (page + 1) (repos ++ page_repos) log

/-- `get_all_repos`: start at page 1 with an empty accumulator. -/
def get_all_repos (endpoint : Nat → HttpResponse) (org_name : String) (fuel : Nat) :
    Option (Except ListError (List Repo × List (Nat × Nat))) :=
  getAllReposLoop endpoint org_name fuel 1 [] []

/-! ## Filter (source lines 197-206) -/

/-- The filtering loop of `pull_all_repos`: skip forks when
`include_forks` is false, skip archived repositories when
`include_archived` is false, keep everything else in order. -/
def filterRepos : List Repo → Bool → Bool → List Repo
  | [], _, _ => []
  | repo :: rest, include_forks, include_archived =>
    if !include_forks && repo.fork then
      filterRepos rest include_forks include_archived
    else if !include_archived && repo.archived then
      filterRepos rest include_forks include_archived
    else
      repo :: filterRepos rest include_forks include_archived

/-! ## Cloner: `clone_repo` (source lines 108-164) -/

/-- The `GIT_SSH_COMMAND` value set for SSH clones (source line 137). -/
def sshCommandValue : String := "ssh -o StrictHostKeyChecking=no -o BatchMode=yes"

/-- The child environment (source lines 132-137): a copy of `os.environ`,
with `GIT_SSH_COMMAND` set when `use_ssh` is true. -/
def buildChildEnv (osEnviron : List (String × String)) (use_ssh : Bool) :
    List (String × String) :=
  if use_ssh then envSet osEnviron "GIT_SSH_COMMAND" sshCommandValue else osEnviron

/-- Tail of the guidance printed on an SSH permission failure (source
lines 150-151). -/
def sshGuidanceTail : String :=
  ". Make sure ssh-agent is running and key is added. Try: ssh-add ~/.ssh/id_ed25519"

/-- Guidance printed on an SSH permission failure (source lines 150-151). -/
def sshGuidance (repo_name : String) : String :=
  "SSH authentication failed for " ++ repo_name ++ sshGuidanceTail

/-- The argument vector of the clone child process (source lines
140-142): the clone subcommand, the selected URL, the destination path. -/
def cloneArgv (repo : Repo) (target_dir : String) (use_ssh : Bool) : List String :=
  ["git", "clone", if use_ssh then repo.ssh_url else repo.clone_url,
    pathJoin target_dir repo.name]

/-- `clone_repo`: skip when the destination exists, otherwise invoke
`git clone url path` once with a 300 second timeout and classify the
result.  Also returns the list of child-process invocations made. -/
def clone_repo (sys : SysEnv) (repo : Repo) (target_dir : String) (use_ssh : Bool) :
    CloneOutcome × List Invocation :=
  let repo_name := repo.name
  let repo_path := pathJoin target_dir repo_name
  if repo_path ∈ sys.existingPaths then
    (.alreadyExists, [])
  else
    let env := buildChildEnv sys.osEnviron use_ssh
    let argv := cloneArgv repo target_dir use_ssh
    let inv : Invocation := ⟨argv, 300, env⟩
    match sys.proc argv with
    | .exited 0 _ => (.success, [inv])
    | .exited (_ + 1) stderr =>
      let error_msg := stripStr stderr
      if containsSubstr error_msg "Permission denied" && use_ssh then
        (.failed (sshGuidance repo_name), [inv])
      else
        (.failed ("Failed to clone " ++ repo_name ++ ": " ++ error_msg), [inv])
    | .timeoutExpired =>
      (.failed ("Timeout while cloning " ++ repo_name), [inv])
    | .fileNotFound =>
      (.failed "Git is not installed or not in PATH", [inv])
    | .otherError msg =>
      (.failed ("Error cloning " ++ repo_name ++ ": " ++ msg), [inv])

/-! ## Orchestrator: `pull_all_repos` (source lines 166-236) -/

/-- The clone loop (source lines 210-219): run `clone_repo` on each
filtered repository in order, counting successes and failures by the
returned boolean, and concatenating the invocation logs. -/
def runClones (sys : SysEnv) (target_dir : String) (use_ssh : Bool) :
    List Repo → Nat × Nat × List Invocation
  | [] => (0, 0, [])
  | repo :: rest =>
    let r := clone_repo sys repo target_dir use_ssh
    let t := runClones sys target_dir use_ssh rest
    if cloneBool r.1 then
      (t.1 + 1, t.2.1, r.2 ++ t.2.2)
    else
      (t.1, t.2.1 + 1, r.2 ++ t.2.2)

/-- The whole world a run observes: the listing endpoint, the clone
system, whether the SSH-agent probe succeeds, and the interactive answer
to the continue-anyway prompt. -/
structure World where
  endpoint : Nat → HttpResponse
  sys : SysEnv
  sshAgentOk : Bool
  userContinues : Bool

/-- Observable result of a run: the process exit status, the printed
summary `(total, successful, failed)` when the iteration phase was
reached, and every child-process clone invocation made. -/
structure RunResult where
  exitCode : Nat
  summary : Option (Nat × Nat × Nat)
  invocations : List Invocation
deriving DecidableEq, Repr

/-- `pull_all_repos`: resolve the target directory, possibly abort at
the SSH prompt, list, filter, clone each survivor, and print the
summary; a listing error is caught and turned into `sys.exit(1)`.
`none` means pagination never terminated (fuel ran out). -/
def pull_all_repos (w : World) (org_name : String) (target_dir? : Option String)
    (use_ssh include_forks include_archived : Bool) (fuel : Nat) :
    Option RunResult :=
  let target_dir := target_dir?.getD org_name
  if use_ssh && !w.sshAgentOk && !w.userContinues then
    some ⟨0, none, []⟩
  else
    match get_all_repos w.endpoint org_name fuel with
    | none => none
    | some (.error _) => some ⟨1, none, []⟩
    | some (.ok (repos, _)) =>
      let filtered_repos := filterRepos repos include_forks include_archived
      let r := runClones w.sys target_dir use_ssh filtered_repos
      some ⟨0, some (filtered_repos.length, r.1, r.2.1), r.2.2⟩

/-! ## Helper lemmas -/

/-- The filter loop equals `List.filter` with the keep predicate. -/
theorem filterRepos_eq_filter (repos : List Repo) (f a : Bool) :
    filterRepos repos f a =
      repos.filter (fun r => !(!f && r.fork) && !(!a && r.archived)) := by
  induction repos with
  | nil => rfl
  | cons hd tl ih =>
    cases hf : !f && hd.fork <;> cases ha : !a && hd.archived <;>
      simp [filterRepos, List.filter, hf, ha, ih]

/-- Looking up the assigned key after a dict assignment gives the new
value. -/
theorem envSet_lookup_self (l : List (String × String)) (k v : String) :
    List.lookup k (envSet l k v) = some v := by
  induction l with
  | nil => simp [envSet, List.lookup]
  | cons hd tl ih =>
    obtain ⟨k0, v0⟩ := hd
    by_cases h : k0 = k
    · simp [envSet, h, List.lookup]
    · simp [envSet, h, List.lookup, ih, beq_false_of_ne (Ne.symm h)]

/-- A dict assignment leaves every other key unchanged. -/
theorem envSet_lookup_other (l : List (String × String)) (k v k' : String)
    (h : k' ≠ k) :
    List.lookup k' (envSet l k v) = List.lookup k' l := by
  induction l with
  | nil => simp [envSet, List.lookup, beq_false_of_ne h]
  | cons hd tl ih =>
    obtain ⟨k0, v0⟩ := hd
    by_cases h0 : k0 = k
    · subst h0
      simp [envSet, List.lookup, beq_false_of_ne h]
    · simp [envSet, h0, List.lookup, ih]

/-- A substring of the right part is a substring of an append. -/
theorem hasSub_append_right (pat ys : List Char) (h : hasSub pat ys = true) :
    ∀ xs, hasSub pat (xs ++ ys) = true := by
  intro xs
  induction xs with
  | nil => simpa using h
  | cons c cs ih => simp [hasSub, ih]

/-- The SSH failure guidance always references agent-based key loading. -/
theorem sshGuidance_mentions_key_loading (repo_name : String) :
    containsSubstr (sshGuidance repo_name) "ssh-add" = true := by
  have htail : hasSub "ssh-add".data sshGuidanceTail.data = true := by decide
  have h2 : hasSub "ssh-add".data (repo_name.data ++ sshGuidanceTail.data) = true :=
    hasSub_append_right _ _ htail repo_name.data
  have h3 : hasSub "ssh-add".data
      (("SSH authentication failed for ").data ++
        (repo_name.data ++ sshGuidanceTail.data)) = true :=
    hasSub_append_right _ _ h2 _
  simpa [containsSubstr, sshGuidance, String.data_append] using h3

/-- C2: Filtering is a pure, order-preserving subset operation: it equals
`List.filter` with the predicate that keeps a descriptor iff not
(includeForks false and fork) and not (includeArchived false and
archived); the result is a sublist of the input (original relative order,
subset), and a member of the input is kept exactly when the predicate
holds. -/
theorem filterRepos_spec (repos : List Repo) (include_forks include_archived : Bool) :
    filterRepos repos include_forks include_archived =
      repos.filter (fun r =>
        !(!include_forks && r.fork) && !(!include_archived && r.archived)) ∧
    (filterRepos repos include_forks include_archived).Sublist repos ∧
    ∀ r ∈ repos,
      (r ∈ filterRepos repos include_forks include_archived ↔
        (!(!include_forks && r.fork) && !(!include_archived && r.archived)) = true) := by
  refine ⟨filterRepos_eq_filter repos include_forks include_archived, ?_, ?_⟩
  · rw [filterRepos_eq_filter]
    exact List.filter_sublist repos
  · intro r hr
    rw [filterRepos_eq_filter]
    constructor
    · intro hmem
      exact (List.mem_filter.mp hmem).2
    · intro hp
      exact List.mem_filter.mpr ⟨hr, hp⟩

/-- Concrete repositories for the filtering example of the spec. -/
def repoPlain : Repo := ⟨"repo1", "https://e/repo1.git", "git@e:repo1.git", false, false⟩

def repoFork : Repo := ⟨"repo2", "https://e/repo2.git", "git@e:repo2.git", true, false⟩

def repoArchived : Repo := ⟨"repo3", "https://e/repo3.git", "git@e:repo3.git", false, true⟩

/-- C2 witness: on `[plain, fork, archived]` with both options false,
exactly the plain repository survives, in order. -/
theorem filterRepos_spec_witness :
    repoPlain ∈ [repoPlain, repoFork, repoArchived] ∧
    (repoPlain ∈ filterRepos [repoPlain, repoFork, repoArchived] false false ↔
      (!(!false && repoPlain.fork) && !(!false && repoPlain.archived)) = true) ∧
    filterRepos [repoPlain, repoFork, repoArchived] false false = [repoPlain] := by
  refine ⟨by decide, ?_, by decide⟩
  exact (filterRepos_spec [repoPlain, repoFork, repoArchived] false false).2.2
    repoPlain (by decide)

/-- C3: when the destination path `targetDir/repo.name` already exists,
`clone_repo` returns the AlreadyExists outcome with zero child-process
invocations, that outcome maps to the success boolean, and in the clone
loop the repository is counted in the success counter, never the failure
counter. -/
theorem clone_repo_already_exists (sys : SysEnv) (repo : Repo)
    (target_dir : String) (use_ssh : Bool)
    (h : pathJoin target_dir repo.name ∈ sys.existingPaths) :
    clone_repo sys repo target_dir use_ssh = (.alreadyExists, []) ∧
    cloneBool CloneOutcome.alreadyExists = true ∧
    ∀ rest, runClones sys target_dir use_ssh (repo :: rest) =
      ((runClones sys target_dir use_ssh rest).1 + 1,
       (runClones sys target_dir use_ssh rest).2.1,
       (runClones sys target_dir use_ssh rest).2.2) := by
  have hc : clone_repo sys repo target_dir use_ssh = (.alreadyExists, []) := by
    simp [clone_repo, h]
  refine ⟨hc, rfl, ?_⟩
  intro rest
  simp [runClones, hc, cloneBool]

/-- A system for the concrete witnesses: `acme/repo1` already exists on
disk, the git client always exits 0, and the parent environment carries a
single variable. -/
def sysExisting : SysEnv :=
  ⟨["acme/repo1"], fun _ => .exited 0 "", [("PATH", "/usr/bin")]⟩

/-- C3 witness: cloning `repo1` into `acme` while `acme/repo1` exists
skips with AlreadyExists and no invocation. -/
theorem clone_repo_already_exists_witness :
    pathJoin "acme" repoPlain.name ∈ sysExisting.existingPaths ∧
    clone_repo sysExisting repoPlain "acme" false = (.alreadyExists, []) := by
  refine ⟨by decide, ?_⟩
  exact (clone_repo_already_exists sysExisting repoPlain "acme" false (by decide)).1

/-- C7: when the destination does not exist, `clone_repo` issues exactly
one child-process invocation: the clone subcommand with the SSH URL when
`use_ssh` and the HTTPS URL otherwise, the destination path
`targetDir/repo.name`, a 300 second timeout, and the child environment
built from the parent environment. -/
theorem clone_repo_single_invocation (sys : SysEnv) (repo : Repo)
    (target_dir : String) (use_ssh : Bool)
    (h : pathJoin target_dir repo.name ∉ sys.existingPaths) :
    (clone_repo sys repo target_dir use_ssh).2 =
      [⟨["git", "clone", if use_ssh then repo.ssh_url else repo.clone_url,
          pathJoin target_dir repo.name], 300,
        buildChildEnv sys.osEnviron use_ssh⟩] := by
  simp only [clone_repo, if_neg h]
  rcases hp : sys.proc (cloneArgv repo target_dir use_ssh) with ⟨code, stderr⟩ | _ | _ | msg
  · rcases code with _ | c
    · simp [hp, cloneArgv]
    · rcases hperm : containsSubstr (stripStr stderr) "Permission denied" && use_ssh <;>
        simp [hp, hperm, cloneArgv]
  · simp [hp, cloneArgv]
  · simp [hp, cloneArgv]
  · simp [hp, cloneArgv]

/-- A system for witnesses where nothing exists on disk yet. -/
def sysFresh : SysEnv :=
  ⟨[], fun _ => .exited 0 "", [("PATH", "/usr/bin")]⟩

/-- C7 witness: a fresh SSH clone of `repo1` into `acme` makes exactly
the one expected invocation. -/
theorem clone_repo_single_invocation_witness :
    pathJoin "acme" repoPlain.name ∉ sysFresh.existingPaths ∧
    (clone_repo sysFresh repoPlain "acme" true).2 =
      [⟨["git", "clone", if true then repoPlain.ssh_url else repoPlain.clone_url,
          pathJoin "acme" repoPlain.name], 300,
        buildChildEnv sysFresh.osEnviron true⟩] := by
  refine ⟨by decide, ?_⟩
  exact clone_repo_single_invocation sysFresh repoPlain "acme" true (by decide)

/-- C10: the child environment equals the parent environment when
`use_ssh` is false; when `use_ssh` is true it binds `GIT_SSH_COMMAND` to
the non-interactive SSH command and agrees with the parent environment on
every other key; and every invocation made by `clone_repo` carries
exactly this environment. -/
theorem buildChildEnv_spec (p : List (String × String)) (k : String)
    (sys : SysEnv) (repo : Repo) (target_dir : String) (use_ssh : Bool)
    (hk : k ≠ "GIT_SSH_COMMAND") :
    buildChildEnv p false = p ∧
    List.lookup "GIT_SSH_COMMAND" (buildChildEnv p true) = some sshCommandValue ∧
    List.lookup k (buildChildEnv p true) = List.lookup k p ∧
    ∀ inv ∈ (clone_repo sys repo target_dir use_ssh).2,
      inv.env = buildChildEnv sys.osEnviron use_ssh := by
  refine ⟨rfl, ?_, ?_, ?_⟩
  · simp [buildChildEnv, envSet_lookup_self]
  · simp [buildChildEnv, envSet_lookup_other p "GIT_SSH_COMMAND" sshCommandValue k hk]
  · intro inv hinv
    by_cases hex : pathJoin target_dir repo.name ∈ sys.existingPaths
    · simp [clone_repo, hex] at hinv
    · simp only [clone_repo, if_neg hex] at hinv
      rcases hp : sys.proc (cloneArgv repo target_dir use_ssh) with ⟨code, stderr⟩ | _ | _ | msg <;>
        simp only [hp] at hinv
      · rcases code with _ | c
        · simp at hinv
          simp [hinv]
        · rcases hperm : containsSubstr (stripStr stderr) "Permission denied" && use_ssh <;>
            simp [hperm] at hinv <;> simp [hinv]
      · simp at hinv
        simp [hinv]
      · simp at hinv
        simp [hinv]
      · simp at hinv
        simp [hinv]

/-- C10 witness: with parent environment `[("PATH", "/usr/bin")]`, the
SSH child environment binds `GIT_SSH_COMMAND` and preserves `PATH`, and
no environment change happens without SSH. -/
theorem buildChildEnv_spec_witness :
    buildChildEnv [("PATH", "/usr/bin")] false = [("PATH", "/usr/bin")] ∧
    List.lookup "GIT_SSH_COMMAND" (buildChildEnv [("PATH", "/usr/bin")] true) =
      some sshCommandValue ∧
    List.lookup "PATH" (buildChildEnv [("PATH", "/usr/bin")] true) =
      List.lookup "PATH" [("PATH", "/usr/bin")] := by
  have h := buildChildEnv_spec [("PATH", "/usr/bin")] "PATH"
    sysFresh repoPlain "acme" true (by decide)
  exact ⟨h.1, h.2.1, h.2.2.1⟩

/-- C6: classification of a clone child-process result when the
destination is fresh: exit code 0 gives Success; a non-zero exit gives
Failed whose reason carries the stripped error output, except that under
SSH with a permission/authentication error text the reason is the
guidance message (which references agent-based key loading); a timeout
expiry gives the Failed timeout outcome. -/
theorem clone_repo_classification (sys : SysEnv) (repo : Repo)
    (target_dir : String) (use_ssh : Bool)
    (h : pathJoin target_dir repo.name ∉ sys.existingPaths) :
    (∀ stderr, sys.proc (cloneArgv repo target_dir use_ssh) = .exited 0 stderr →
      (clone_repo sys repo target_dir use_ssh).1 = .success) ∧
    (∀ c stderr, sys.proc (cloneArgv repo target_dir use_ssh) = .exited (c + 1) stderr →
      containsSubstr (stripStr stderr) "Permission denied" = true → use_ssh = true →
      (clone_repo sys repo target_dir use_ssh).1 = .failed (sshGuidance repo.name) ∧
      containsSubstr (sshGuidance repo.name) "ssh-add" = true) ∧
    (∀ c stderr, sys.proc (cloneArgv repo target_dir use_ssh) = .exited (c + 1) stderr →
      (containsSubstr (stripStr stderr) "Permission denied" && use_ssh) = false →
      (clone_repo sys repo target_dir use_ssh).1 =
        .failed ("Failed to clone " ++ repo.name ++ ": " ++ stripStr stderr)) ∧
    (sys.proc (cloneArgv repo target_dir use_ssh) = .timeoutExpired →
      (clone_repo sys repo target_dir use_ssh).1 =
        .failed ("Timeout while cloning " ++ repo.name)) := by
  refine ⟨?_, ?_, ?_, ?_⟩
  · intro stderr hp
    simp [clone_repo, if_neg h, hp]
  · intro c stderr hp hperm hssh
    refine ⟨?_, sshGuidance_mentions_key_loading repo.name⟩
    subst hssh
    simp [clone_repo, if_neg h, hp, hperm]
  · intro c stderr hp hperm
    simp [clone_repo, if_neg h, hp, hperm]
  · intro hp
    simp [clone_repo, if_neg h, hp]

/-- A system whose git client fails with a permission error. -/
def sysPermDenied : SysEnv :=
  ⟨[], fun _ => .exited 128 "git@e: Permission denied (publickey).",
    [("PATH", "/usr/bin")]⟩

/-- C6 witness: an SSH clone failing with a permission-denied error is
classified as Failed with the key-loading guidance. -/
theorem clone_repo_classification_witness :
    pathJoin "acme" repoPlain.name ∉ sysPermDenied.existingPaths ∧
    sysPermDenied.proc (cloneArgv repoPlain "acme" true) =
      .exited (127 + 1) "git@e: Permission denied (publickey)." ∧
    containsSubstr (stripStr "git@e: Permission denied (publickey).")
      "Permission denied" = true ∧
    (clone_repo sysPermDenied repoPlain "acme" true).1 =
      .failed (sshGuidance repoPlain.name) ∧
    containsSubstr (sshGuidance repoPlain.name) "ssh-add" = true := by
  refine ⟨by decide, rfl, by decide, ?_⟩
  exact (clone_repo_classification sysPermDenied repoPlain "acme" true
    (by decide)).2.1 127 "git@e: Permission denied (publickey)." rfl (by decide) rfl

/-- If every page answers with status 200, the fetch loop never produces
an error. -/
theorem getAllReposLoop_no_error (endpoint : Nat → HttpResponse) (org : String)
    (hall : ∀ p, (endpoint p).status = 200) :
    ∀ (fuel page : Nat) (acc : List Repo) (log : List (Nat × Nat)) (e : ListError),
      getAllReposLoop endpoint org fuel page acc log ≠ some (.error e) := by
  intro fuel
  induction fuel with
  | zero => intro page acc log e; simp [getAllReposLoop]
  | succ f ih =>
    intro page acc log e
    have h200 := hall page
    simp only [getAllReposLoop, h200]
    norm_num
    by_cases hemp : (endpoint page).repos = []
    · simp [hemp]
    · simp only [if_neg hemp]
      by_cases hshort : (endpoint page).repos.length < per_page
      · simp [hshort]
      · simp only [if_neg hshort]
        exact ih (page + 1) (acc ++ (endpoint page).repos) (log ++ [(page, per_page)]) e

/-- Loop invariant for error dispatch: if the first `k - 1` pages ahead
of `page` are full 200 pages (so the loop reaches the k-th request),
then the status code of that k-th response decides the outcome of the
whole loop: 404 gives NotFound, 403 gives RateLimited, and any other
status different from 200 gives ApiError with that status and body. -/
theorem getAllReposLoop_error_dispatch (endpoint : Nat → HttpResponse) (org : String) :
    ∀ (k page fuel : Nat) (acc : List Repo) (log : List (Nat × Nat)),
    1 ≤ k → k ≤ fuel →
    (∀ i, i + 1 < k → (endpoint (page + i)).status = 200) →
    (∀ i, i + 1 < k → per_page ≤ (endpoint (page + i)).repos.length) →
    ((endpoint (page + (k - 1))).status = 404 →
      getAllReposLoop endpoint org fuel page acc log =
        some (.error (.notFound org))) ∧
    ((endpoint (page + (k - 1))).status = 403 →
      getAllReposLoop endpoint org fuel page acc log =
        some (.error .rateLimited)) ∧
    ((endpoint (page + (k - 1))).status ≠ 200 →
      (endpoint (page + (k - 1))).status ≠ 404 →
      (endpoint (page + (k - 1))).status ≠ 403 →
      getAllReposLoop endpoint org fuel page acc log =
        some (.error (.apiError (endpoint (page + (k - 1))).status
          (endpoint (page + (k - 1))).text))) := by
  intro k
  induction k with
  | zero => intro page fuel acc log h1; omega
  | succ k ih =>
    intro page fuel acc log h1 hfuel hstat hfull
    obtain ⟨f, rfl⟩ : ∃ f, fuel = f + 1 := ⟨fuel - 1, by omega⟩
    rcases Nat.eq_zero_or_pos k with hk0 | hkpos
    · subst hk0
      simp only [Nat.succ_sub_one, Nat.add_zero]
      refine ⟨?_, ?_, ?_⟩
      · intro h404
        simp [getAllReposLoop, h404]
      · intro h403
        simp [getAllReposLoop, h403]
      · intro h200 h404 h403
        simp [getAllReposLoop, h200, h404, h403]
    · have h200 : (endpoint page).status = 200 := by simpa using hstat 0 (by omega)
      have hfull0 : per_page ≤ (endpoint page).repos.length := by
        simpa using hfull 0 (by omega)
      have hemp : ¬(endpoint page).repos = [] := by
        intro hnil
        rw [hnil] at hfull0
        simp [per_page] at hfull0
      have hnshort : ¬(endpoint page).repos.length < per_page := by omega
      have hstat' : ∀ i, i + 1 < k → (endpoint (page + 1 + i)).status = 200 := by
        intro i hi
        have h := hstat (i + 1) (by omega)
        have heq : page + (i + 1) = page + 1 + i := by omega
        rw [heq] at h
        exact h
      have hfull' : ∀ i, i + 1 < k → per_page ≤ (endpoint (page + 1 + i)).repos.length := by
        intro i hi
        have h := hfull (i + 1) (by omega)
        have heq : page + (i + 1) = page + 1 + i := by omega
        rw [heq] at h
        exact h
      have ihk := ih (page + 1) f (acc ++ (endpoint page).repos)
        (log ++ [(page, per_page)]) hkpos (by omega) hstat' hfull'
      have heq : page + 1 + (k - 1) = page + (k + 1 - 1) := by omega
      rw [heq] at ihk
      refine ⟨?_, ?_, ?_⟩
      · intro h404
        simp only [getAllReposLoop, h200]
        norm_num
        rw [if_neg hemp, if_neg hnshort]
        exact ihk.1 h404
      · intro h403
        simp only [getAllReposLoop, h200]
        norm_num
        rw [if_neg hemp, if_neg hnshort]
        exact ihk.2.1 h403
      · intro hs200 hs404 hs403
        simp only [getAllReposLoop, h200]
        norm_num
        rw [if_neg hemp, if_neg hnshort]
        exact ihk.2.2 hs200 hs404 hs403

/-- C4 (amended): for every listing request the loop makes - i.e. for
every page k reached after k-1 full 200 pages - a 404 response fails the
listing with NotFound, a 403 fails it with RateLimited, and any other
status different from 200 fails it with ApiError carrying the status
code and body text; and when every page answers 200 the listing never
fails. -/
theorem get_all_repos_status_dispatch (endpoint : Nat → HttpResponse)
    (org : String) (k fuel : Nat) (hk : 1 ≤ k) (hfuel : k ≤ fuel)
    (hstat : ∀ p, 1 ≤ p → p < k → (endpoint p).status = 200)
    (hfull : ∀ p, 1 ≤ p → p < k → per_page ≤ (endpoint p).repos.length) :
    ((endpoint k).status = 404 →
      get_all_repos endpoint org fuel = some (.error (.notFound org))) ∧
    ((endpoint k).status = 403 →
      get_all_repos endpoint org fuel = some (.error .rateLimited)) ∧
    ((endpoint k).status ≠ 200 → (endpoint k).status ≠ 404 → (endpoint k).status ≠ 403 →
      get_all_repos endpoint org fuel =
        some (.error (.apiError (endpoint k).status (endpoint k).text))) ∧
    ((∀ p, (endpoint p).status = 200) →
      ∀ e, get_all_repos endpoint org fuel ≠ some (.error e)) := by
  have hstat' : ∀ i, i + 1 < k → (endpoint (1 + i)).status = 200 :=
    fun i hi => hstat (1 + i) (by omega) (by omega)
  have hfull' : ∀ i, i + 1 < k → per_page ≤ (endpoint (1 + i)).repos.length :=
    fun i hi => hfull (1 + i) (by omega) (by omega)
  have h := getAllReposLoop_error_dispatch endpoint org k 1 fuel [] []
    hk hfuel hstat' hfull'
  have heq : 1 + (k - 1) = k := by omega
  rw [heq] at h
  exact ⟨h.1, h.2.1, h.2.2,
    fun hall e => getAllReposLoop_no_error endpoint org hall fuel 1 [] [] e⟩

/-- An endpoint that always answers 404. -/
def endpoint404 : Nat → HttpResponse := fun _ => ⟨404, "Not Found", []⟩

/-- An endpoint whose page 1 is a full 200 page and whose page 2 answers
403: the mid-pagination rate-limit case. -/
def endpointRateLimited : Nat → HttpResponse :=
  fun p => if p = 1 then ⟨200, "", List.replicate per_page repoPlain⟩
    else ⟨403, "rate limited", []⟩

/-- C4 witness: a 404 on the first request fails with NotFound, and a
403 on the second request - after a full first page - fails with
RateLimited. -/
theorem get_all_repos_status_dispatch_witness :
    get_all_repos endpoint404 "acme" 5 = some (.error (.notFound "acme")) ∧
    get_all_repos endpointRateLimited "acme" 3 = some (.error .rateLimited) := by
  constructor
  · exact (get_all_repos_status_dispatch endpoint404 "acme" 1 5 (by decide) (by decide)
      (fun p h1 h2 => absurd h1 (by omega))
      (fun p h1 h2 => absurd h1 (by omega))).1 rfl
  · exact (get_all_repos_status_dispatch endpointRateLimited "acme" 2 3
      (by decide) (by decide)
      (fun p h1 h2 => by
        have hp : p = 1 := by omega
        subst hp
        rfl)
      (fun p h1 h2 => by
        have hp : p = 1 := by omega
        subst hp
        simp [endpointRateLimited, per_page])).2.1 rfl

/-- An endpoint that always answers 201, a 2xx status other than 200. -/
def endpoint201 : Nat → HttpResponse := fun _ => ⟨201, "Created", []⟩

/-- C4 counterexample: a 201 response is a 2xx status, yet the listing
raises ApiError on it, so "a 2xx response never raises" is false of the
code: the check is against the exact status 200. -/
theorem get_all_repos_2xx_raises :
    200 ≤ (endpoint201 1).status ∧ (endpoint201 1).status < 300 ∧
    get_all_repos endpoint201 "acme" 5 =
      some (.error (.apiError 201 "Created")) := by
  refine ⟨by decide, by decide, rfl⟩

/-- Each repository entering the clone loop lands in exactly one of the
two counters: successes plus failures equal the list length. -/
theorem runClones_counts (sys : SysEnv) (target_dir : String) (use_ssh : Bool) :
    ∀ rs : List Repo,
      (runClones sys target_dir use_ssh rs).1 +
        (runClones sys target_dir use_ssh rs).2.1 = rs.length := by
  intro rs
  induction rs with
  | nil => rfl
  | cons hd tl ih =>
    simp only [runClones]
    cases hc : cloneBool (clone_repo sys hd target_dir use_ssh).1 <;>
      simp [hc, List.length_cons] <;> omega

/-- C8: when the listing phase fails, the run aborts at once: exit
status 1, no summary, and zero child-process clone invocations. -/
theorem pull_all_repos_lister_error_aborts (w : World) (org : String)
    (td? : Option String) (use_ssh include_forks include_archived : Bool)
    (fuel : Nat) (e : ListError)
    (hprompt : (use_ssh && !w.sshAgentOk && !w.userContinues) = false)
    (h : get_all_repos w.endpoint org fuel = some (.error e)) :
    pull_all_repos w org td? use_ssh include_forks include_archived fuel =
      some ⟨1, none, []⟩ := by
  simp [pull_all_repos, hprompt, h]

/-- A world whose listing endpoint always answers 404, with a fresh
filesystem and a working git client. -/
def world404 : World := ⟨endpoint404, sysFresh, true, true⟩

/-- C8 witness: listing a nonexistent organization aborts the run with
no clone attempt and no summary. -/
theorem pull_all_repos_lister_error_aborts_witness :
    pull_all_repos world404 "ghost" none false true true 3 = some ⟨1, none, []⟩ :=
  pull_all_repos_lister_error_aborts world404 "ghost" none false true true 3
    (.notFound "ghost") (by decide) rfl

/-- C5 (amended): the exit status is 1 exactly when the listing phase
fails; whenever the listing succeeds the run completes with exit status
0, regardless of how the individual clone attempts fared (a missing git
client is one of the per-repository failure outcomes, not a fatal
error). -/
theorem pull_all_repos_exit_code (w : World) (org : String)
    (td? : Option String) (use_ssh include_forks include_archived : Bool)
    (fuel : Nat)
    (hprompt : (use_ssh && !w.sshAgentOk && !w.userContinues) = false) :
    (∀ e, get_all_repos w.endpoint org fuel = some (.error e) →
      (pull_all_repos w org td? use_ssh include_forks include_archived fuel).map
        RunResult.exitCode = some 1) ∧
    (∀ repos log, get_all_repos w.endpoint org fuel = some (.ok (repos, log)) →
      (pull_all_repos w org td? use_ssh include_forks include_archived fuel).map
        RunResult.exitCode = some 0) := by
  constructor
  · intro e h
    simp [pull_all_repos, hprompt, h]
  · intro repos log h
    simp [pull_all_repos, hprompt, h]

/-- An endpoint whose only page holds the single plain repository. -/
def endpointOneRepo : Nat → HttpResponse := fun _ => ⟨200, "", [repoPlain]⟩

/-- A world where the git client binary is missing: every child-process
launch raises FileNotFoundError. -/
def worldNoGit : World :=
  ⟨endpointOneRepo, ⟨[], fun _ => .fileNotFound, []⟩, true, true⟩

/-- C5 counterexample: with the git client missing, the one clone
attempt fails with the client-missing outcome, yet the run completes
normally with exit status 0 (summary total 1, success 0, failed 1) - not
the nonzero exit the claim requires for a missing version-control
client. -/
theorem pull_all_repos_client_missing_exit_zero :
    worldNoGit.sys.proc (cloneArgv repoPlain "acme" false) = .fileNotFound ∧
    (clone_repo worldNoGit.sys repoPlain "acme" false).1 =
      .failed "Git is not installed or not in PATH" ∧
    pull_all_repos worldNoGit "acme" none false true true 2 =
      some ⟨0, some (1, 0, 1), [⟨cloneArgv repoPlain "acme" false, 300, []⟩]⟩ :=
  ⟨rfl, rfl, rfl⟩

/-- C5 witness: in the same world the listing succeeds, so the theorem
gives exit status 0 even though the only clone attempt failed for want
of a client. -/
theorem pull_all_repos_exit_code_witness :
    (pull_all_repos worldNoGit "acme" none false true true 2).map
      RunResult.exitCode = some 0 :=
  (pull_all_repos_exit_code worldNoGit "acme" none false true true 2
    (by decide)).2 [repoPlain] [(1, per_page)] rfl

/-- C9: whenever the run reaches the iteration phase, the printed
summary has total equal to the number of repositories surviving the
filter, and successes plus failures equal that total. -/
theorem pull_all_repos_summary_invariant (w : World) (org : String)
    (td? : Option String) (use_ssh include_forks include_archived : Bool)
    (fuel : Nat) (repos : List Repo) (log : List (Nat × Nat))
    (hprompt : (use_ssh && !w.sshAgentOk && !w.userContinues) = false)
    (h : get_all_repos w.endpoint org fuel = some (.ok (repos, log))) :
    ∃ s fc invs,
      pull_all_repos w org td? use_ssh include_forks include_archived fuel =
        some ⟨0, some ((filterRepos repos include_forks include_archived).length,
          s, fc), invs⟩ ∧
      s + fc = (filterRepos repos include_forks include_archived).length := by
  refine ⟨(runClones w.sys (td?.getD org) use_ssh
      (filterRepos repos include_forks include_archived)).1,
    (runClones w.sys (td?.getD org) use_ssh
      (filterRepos repos include_forks include_archived)).2.1,
    (runClones w.sys (td?.getD org) use_ssh
      (filterRepos repos include_forks include_archived)).2.2, ?_, ?_⟩
  · simp [pull_all_repos, hprompt, h]
  · exact runClones_counts w.sys (td?.getD org) use_ssh
      (filterRepos repos include_forks include_archived)

/-- An endpoint whose only page holds three repositories: a plain one, a
fork, and an archived one. -/
def endpointThree : Nat → HttpResponse :=
  fun _ => ⟨200, "", [repoPlain, repoFork, repoArchived]⟩

/-- The three-repository world of the end-to-end example: fresh disk,
git succeeds. -/
def worldThree : World := ⟨endpointThree, sysFresh, true, true⟩

/-- C9 witness: with repo2 a fork and repo3 archived and both excluded,
only repo1 is considered and cloned; the summary is total 1, success 1,
failure 0. -/
theorem pull_all_repos_summary_invariant_witness :
    (∃ s fc invs,
      pull_all_repos worldThree "acme" none false false false 2 =
        some ⟨0, some ((filterRepos [repoPlain, repoFork, repoArchived]
          false false).length, s, fc), invs⟩ ∧
      s + fc = (filterRepos [repoPlain, repoFork, repoArchived]
        false false).length) ∧
    (pull_all_repos worldThree "acme" none false false false 2).map
      RunResult.summary = some (some (1, 1, 0)) :=
  ⟨pull_all_repos_summary_invariant worldThree "acme" none false false false 2
      [repoPlain, repoFork, repoArchived] [(1, per_page)] (by decide) rfl,
    rfl⟩

/-- The length of a concatenation of pages is the sum of the page
lengths. -/
theorem length_flatMap_sum (f : Nat → List Repo) :
    ∀ l : List Nat, (l.flatMap f).length = (l.map (fun p => (f p).length)).sum := by
  intro l
  induction l with
  | nil => rfl
  | cons hd tl ih => simp [ih]

/-- Loop invariant for pagination: starting at `page` with `k` pages
ahead of which the first `k - 1` answer 200 with at least `per_page`
entries and the k-th answers 200 with fewer than `per_page` entries, the
loop returns the accumulator extended by the concatenation of pages
`page .. page + k - 1`, and logs exactly those requests in increasing
order, each with page size `per_page`. -/
theorem getAllReposLoop_pages (endpoint : Nat → HttpResponse) (org : String) :
    ∀ (k page fuel : Nat) (acc : List Repo) (log : List (Nat × Nat)),
    1 ≤ k → k ≤ fuel →
    (∀ i, i < k → (endpoint (page + i)).status = 200) →
    (∀ i, i + 1 < k → per_page ≤ (endpoint (page + i)).repos.length) →
    (endpoint (page + (k - 1))).repos.length < per_page →
    getAllReposLoop endpoint org fuel page acc log =
      some (.ok (acc ++ (List.range' page k).flatMap (fun p => (endpoint p).repos),
                 log ++ (List.range' page k).map (fun p => (p, per_page)))) := by
  intro k
  induction k with
  | zero => intro page fuel acc log h1; omega
  | succ k ih =>
    intro page fuel acc log h1 hfuel hstat hfull hshort
    obtain ⟨f, rfl⟩ : ∃ f, fuel = f + 1 := ⟨fuel - 1, by omega⟩
    have h200 : (endpoint page).status = 200 := by simpa using hstat 0 (by omega)
    rcases Nat.eq_zero_or_pos k with hk0 | hkpos
    · subst hk0
      have hsh : (endpoint page).repos.length < per_page := by simpa using hshort
      simp only [getAllReposLoop, h200]
      norm_num
      by_cases hemp : (endpoint page).repos = []
      · simp [hemp, List.range']
      · simp [hemp, hsh, List.range']
    · have hfull0 : per_page ≤ (endpoint page).repos.length := by
        simpa using hfull 0 (by omega)
      have hemp : ¬(endpoint page).repos = [] := by
        intro hnil
        rw [hnil] at hfull0
        simp [per_page] at hfull0
      have hnshort : ¬(endpoint page).repos.length < per_page := by omega
      have hstat' : ∀ i, i < k → (endpoint (page + 1 + i)).status = 200 := by
        intro i hi
        have h := hstat (i + 1) (by omega)
        have heq : page + (i + 1) = page + 1 + i := by omega
        rw [heq] at h
        exact h
      have hfull' : ∀ i, i + 1 < k → per_page ≤ (endpoint (page + 1 + i)).repos.length := by
        intro i hi
        have h := hfull (i + 1) (by omega)
        have heq : page + (i + 1) = page + 1 + i := by omega
        rw [heq] at h
        exact h
      have hshort' : (endpoint (page + 1 + (k - 1))).repos.length < per_page := by
        have heq : page + 1 + (k - 1) = page + (k + 1 - 1) := by omega
        rw [heq]
        exact hshort
      have ihk := ih (page + 1) f (acc ++ (endpoint page).repos)
        (log ++ [(page, per_page)]) hkpos (by omega) hstat' hfull' hshort'
      simp only [getAllReposLoop, h200]
      norm_num
      rw [if_neg hemp, if_neg hnshort, ihk]
      simp [List.range'_succ, List.append_assoc]

/-- C1: when pages 1 .. k-1 are full (at least `per_page` entries, status
200) and page k is the first short or empty page (status 200), the
listing returns the concatenation of pages 1 .. k, requests exactly the
pages 1, 2, ..., k in increasing order with page size `per_page`, makes
no request after page k, and the aggregate length is the sum of the
per-page lengths. -/
theorem get_all_repos_pagination (endpoint : Nat → HttpResponse) (org : String)
    (k fuel : Nat) (hk : 1 ≤ k) (hfuel : k ≤ fuel)
    (hstat : ∀ p, 1 ≤ p → p ≤ k → (endpoint p).status = 200)
    (hfull : ∀ p, 1 ≤ p → p < k → per_page ≤ (endpoint p).repos.length)
    (hshort : (endpoint k).repos.length < per_page) :
    get_all_repos endpoint org fuel =
      some (.ok ((List.range' 1 k).flatMap (fun p => (endpoint p).repos),
                 (List.range' 1 k).map (fun p => (p, per_page)))) ∧
    ((List.range' 1 k).flatMap (fun p => (endpoint p).repos)).length =
      ((List.range' 1 k).map (fun p => (endpoint p).repos.length)).sum := by
  constructor
  · have hstat' : ∀ i, i < k → (endpoint (1 + i)).status = 200 :=
      fun i hi => hstat (1 + i) (by omega) (by omega)
    have hfull' : ∀ i, i + 1 < k → per_page ≤ (endpoint (1 + i)).repos.length :=
      fun i hi => hfull (1 + i) (by omega) (by omega)
    have hshort' : (endpoint (1 + (k - 1))).repos.length < per_page := by
      have heq : 1 + (k - 1) = k := by omega
      rw [heq]
      exact hshort
    have h := getAllReposLoop_pages endpoint org k 1 fuel [] []
      hk hfuel hstat' hfull' hshort'
    simpa [get_all_repos] using h
  · exact length_flatMap_sum (fun p => (endpoint p).repos) (List.range' 1 k)

/-- C1 witness: a constant endpoint whose page 1 already holds fewer
than `per_page` repositories stops after exactly one request. -/
theorem get_all_repos_pagination_witness :
    get_all_repos endpointThree "acme" 3 =
      some (.ok ((List.range' 1 1).flatMap (fun p => (endpointThree p).repos),
                 (List.range' 1 1).map (fun p => (p, per_page)))) ∧
    ((List.range' 1 1).flatMap (fun p => (endpointThree p).repos)).length =
      ((List.range' 1 1).map (fun p => (endpointThree p).repos.length)).sum :=
  get_all_repos_pagination endpointThree "acme" 1 3 (by decide) (by decide)
    (fun p h1 h2 => rfl) (fun p h1 h2 => absurd h1 (by omega)) (by decide)
